import Mathlib

set_option maxRecDepth 100000

/-!
Verification of the socket-agent library (descriptor builder, token cache,
auth middleware) against its natural-language specification.

The Python sources are shallowly embedded: pure functions become Lean
functions, the process-wide mutable objects (token cache, memoized
descriptor) become explicit state passed through each operation, and the
single outbound HTTP validation call becomes an oracle parameter describing
its outcome.  Machine integers are modelled as `Nat`/`Int` with explicit
reductions modulo `2 ^ 32` where the hash arithmetic wraps.
-/

namespace SocketAgent

/-! ### SHA-256 (hashlib.sha256, used by `TokenCache._hash_token`)

An executable SHA-256 over byte lists (bytes are `Nat` values below 256),
word arithmetic carried out on `Nat` with explicit `% 2 ^ 32`. -/

/-- Reduce to a 32-bit word. -/
def w32 (n : Nat) : Nat := n % 4294967296

/-- Right rotation of a 32-bit word by `k` bits. -/
def rotr (k n : Nat) : Nat := w32 (n / 2 ^ k + n % 2 ^ k * 2 ^ (32 - k))

/-- Bitwise complement within 32 bits. -/
def bnot32 (n : Nat) : Nat := Nat.xor n 4294967295

/-- SHA-256 Ch function. -/
def ch (e f g : Nat) : Nat := Nat.xor (Nat.land e f) (Nat.land (bnot32 e) g)

/-- SHA-256 Maj function. -/
def maj (a b c : Nat) : Nat :=
  Nat.xor (Nat.xor (Nat.land a b) (Nat.land a c)) (Nat.land b c)

/-- SHA-256 big sigma 0. -/
def bsig0 (a : Nat) : Nat := Nat.xor (Nat.xor (rotr 2 a) (rotr 13 a)) (rotr 22 a)

/-- SHA-256 big sigma 1. -/
def bsig1 (e : Nat) : Nat := Nat.xor (Nat.xor (rotr 6 e) (rotr 11 e)) (rotr 25 e)

/-- SHA-256 small sigma 0. -/
def ssig0 (x : Nat) : Nat := Nat.xor (Nat.xor (rotr 7 x) (rotr 18 x)) (x / 2 ^ 3)

/-- SHA-256 small sigma 1. -/
def ssig1 (x : Nat) : Nat := Nat.xor (Nat.xor (rotr 17 x) (rotr 19 x)) (x / 2 ^ 10)

/-- `k` bytes of `n`, big-endian. -/
def beBytes : Nat → Nat → List Nat
  | 0, _ => []
  | k + 1, n => beBytes k (n / 256) ++ [n % 256]

/-- SHA-256 padding: append `0x80`, zeros, and the 64-bit big-endian bit
length so the total length is a multiple of 64 bytes. -/
def sha256Pad (msg : List Nat) : List Nat :=
  let padZeros := (119 - msg.length % 64) % 64
  msg ++ 128 :: List.replicate padZeros 0 ++ beBytes 8 (8 * msg.length)

/-- Split into `n` chunks of 64 bytes. -/
def chunksOf64 : Nat → List Nat → List (List Nat)
  | 0, _ => []
  | n + 1, l => l.take 64 :: chunksOf64 n (l.drop 64)

/-- Big-endian 32-bit words from bytes. -/
def bytesToWords : List Nat → List Nat
  | b0 :: b1 :: b2 :: b3 :: rest =>
      (((b0 * 256 + b1) * 256 + b2) * 256 + b3) :: bytesToWords rest
  | _ => []

/-- One message-schedule extension step: append word `i` computed from
words `i - 2`, `i - 7`, `i - 15`, `i - 16`. -/
def schedStep (w : List Nat) : List Nat :=
  let i := w.length
  w ++ [w32 (ssig1 (w.getD (i - 2) 0) + w.getD (i - 7) 0 +
             ssig0 (w.getD (i - 15) 0) + w.getD (i - 16) 0)]

/-- Iterate the schedule extension `n` times. -/
def schedN : Nat → List Nat → List Nat
  | 0, w => w
  | n + 1, w => schedN n (schedStep w)

/-- The eight 32-bit working variables / hash state. -/
structure H8 where
  a : Nat
  b : Nat
  c : Nat
  d : Nat
  e : Nat
  f : Nat
  g : Nat
  h : Nat
  deriving Repr, DecidableEq

/-- The SHA-256 initial hash value. -/
def initH : H8 :=
  ⟨1779033703, 3144134277, 1013904242, 2773480762,
   1359893119, 2600822924, 528734635, 1541459225⟩

/-- The 64 SHA-256 round constants. -/
def sha256K : List Nat :=
  [1116352408, 1899447441, 3049323471, 3921009573,
   961987163, 1508970993, 2453635748, 2870763221,
   3624381080, 310598401, 607225278, 1426881987,
   1925078388, 2162078206, 2614888103, 3248222580,
   3835390401, 4022224774, 264347078, 604807628,
   770255983, 1249150122, 1555081692, 1996064986,
   2554220882, 2821834349, 2952996808, 3210313671,
   3336571891, 3584528711, 113926993, 338241895,
   666307205, 773529912, 1294757372, 1396182291,
   1695183700, 1986661051, 2177026350, 2456956037,
   2730485921, 2820302411, 3259730800, 3345764771,
   3516065817, 3600352804, 4094571909, 275423344,
   430227734, 506948616, 659060556, 883997877,
   958139571, 1322822218, 1537002063, 1747873779,
   1955562222, 2024104815, 2227730452, 2361852424,
   2428436474, 2756734187, 3204031479, 3329325298]

/-- One SHA-256 compression round. -/
def sha256Round (s : H8) (kw : Nat × Nat) : H8 :=
  let t1 := w32 (s.h + bsig1 s.e + ch s.e s.f s.g + kw.1 + kw.2)
  let t2 := w32 (bsig0 s.a + maj s.a s.b s.c)
  ⟨w32 (t1 + t2), s.a, s.b, s.c, w32 (s.d + t1), s.e, s.f, s.g⟩

/-- Componentwise 32-bit addition of hash states. -/
def addH8 (x y : H8) : H8 :=
  ⟨w32 (x.a + y.a), w32 (x.b + y.b), w32 (x.c + y.c), w32 (x.d + y.d),
   w32 (x.e + y.e), w32 (x.f + y.f), w32 (x.g + y.g), w32 (x.h + y.h)⟩

/-- Process one 64-byte block. -/
def sha256Block (h : H8) (block : List Nat) : H8 :=
  let ws := schedN 48 (bytesToWords block)
  addH8 h ((sha256K.zip ws).foldl sha256Round h)

/-- The SHA-256 digest (32 bytes) of a byte-list message. -/
def sha256 (msg : List Nat) : List Nat :=
  let padded := sha256Pad msg
  let final := (chunksOf64 (padded.length / 64) padded).foldl sha256Block initH
  (List.map (beBytes 4)
    [final.a, final.b, final.c, final.d,
     final.e, final.f, final.g, final.h]).flatten

/-- Lowercase hex digit for `n % 16`. -/
def hexDigitChar (n : Nat) : Char :=
  "0123456789abcdef".data.getD (n % 16) '0'

/-- Two lowercase hex digits of a byte. -/
def byteHex (b : Nat) : List Char := [hexDigitChar (b / 16), hexDigitChar b]

/-- UTF-8 bytes of one character (`str.encode` semantics per code point). -/
def utf8CharBytes (c : Char) : List Nat :=
  let n := c.toNat
  if n < 128 then [n]
  else if n < 2048 then [192 + n / 64, 128 + n % 64]
  else if n < 65536 then [224 + n / 4096, 128 + n / 64 % 64, 128 + n % 64]
  else [240 + n / 262144, 128 + n / 4096 % 64, 128 + n / 64 % 64, 128 + n % 64]

/-- UTF-8 bytes of a string (`token.encode()`). -/
def utf8Bytes (s : String) : List Nat := (s.data.map utf8CharBytes).flatten

/-- `TokenCache._hash_token`: lowercase hex SHA-256 digest of the
UTF-8-encoded token, used as the cache key. -/
def hashToken (token : String) : String :=
  String.mk (((sha256 (utf8Bytes token)).map byteHex).flatten)

/-! ### Data model of `auth.py` -/

/-- `User`: user information from token validation. -/
structure User where
  id : Int
  username : String
  email : Option String := none
  created_at : String
  deriving Repr, DecidableEq

/-- `TokenValidationResult`: result of token validation. -/
structure TokenValidationResult where
  valid : Bool
  user : Option User := none
  error : Option String := none
  deriving Repr, DecidableEq

/-- One entry of the `TokenCache._cache` dict: the stored (round-tripped)
validation result and the insertion timestamp. -/
structure CacheEntry where
  result : TokenValidationResult
  timestamp : Int
  deriving Repr, DecidableEq

/-! Python dict with string keys, as an association list in insertion
order: lookup finds the first (unique) matching key, assignment overwrites
in place or appends, `del` removes the entry. -/

/-- Dict lookup (`k in d` / `d[k]`). -/
def dictGet {α : Type} : List (String × α) → String → Option α
  | [], _ => none
  | (k1, v) :: rest, k => if k1 = k then some v else dictGet rest k

/-- Dict assignment (`d[k] = v`): overwrite in place, else append. -/
def dictSet {α : Type} : List (String × α) → String → α → List (String × α)
  | [], k, v => [(k, v)]
  | (k1, v1) :: rest, k, v =>
      if k1 = k then (k1, v) :: rest else (k1, v1) :: dictSet rest k v

/-- Dict deletion (`del d[k]`). -/
def dictDel {α : Type} : List (String × α) → String → List (String × α)
  | [], _ => []
  | (k1, v1) :: rest, k => if k1 = k then rest else (k1, v1) :: dictDel rest k

/-- `TokenCache`: simple in-memory token cache with a fixed TTL.  Time is
an explicit `Int` parameter standing for `time.time()`. -/
structure TokenCache where
  ttl : Int
  cache : List (String × CacheEntry)
  deriving Repr, DecidableEq

/-- `TokenCache.get`: return the cached validation result when the entry
is younger than `ttl`; delete an expired entry and miss.  Returns the
result together with the (possibly shrunk) cache state. -/
def TokenCache.get (c : TokenCache) (token : String) (now : Int) :
    Option TokenValidationResult × TokenCache :=
  let token_hash := hashToken token
  match dictGet c.cache token_hash with
  | some entry =>
      if now - entry.timestamp < c.ttl then (some entry.result, c)
      else (none, ⟨c.ttl, dictDel c.cache token_hash⟩)
  | none => (none, c)

/-- `TokenCache.set`: cache a validation result under the hashed token
with the current timestamp. -/
def TokenCache.set (c : TokenCache) (token : String)
    (result : TokenValidationResult) (now : Int) : TokenCache :=
  ⟨c.ttl, dictSet c.cache (hashToken token) ⟨result, now⟩⟩

/-- Outcome of the single outbound `GET <identity-service-url>/v1/me`
call: an HTTP status (200 with a parsed user payload, 401, or another
code) or a raised exception (network error, timeout, bad payload). -/
inductive HttpOutcome where
  | ok200 (user : User)
  | status401
  | statusOther (code : Nat)
  | failure (msg : String)
  deriving Repr, DecidableEq

/-- The `TokenValidationResult` that `_validate_token` builds from the
outcome of the outbound call (lines 138-148 of auth.py). -/
def outcomeResult : HttpOutcome → TokenValidationResult
  | .ok200 u => ⟨true, some u, none⟩
  | .status401 => ⟨false, none, some "Invalid token"⟩
  | .statusOther code => ⟨false, none, some ("Validation failed: " ++ toString code)⟩
  | .failure msg => ⟨false, none, some ("Validation error: " ++ msg)⟩

/-- Result of one `_validate_token` call: the verdict, the cache state
afterwards, and how many outbound validation calls were issued. -/
structure ValidateResult where
  result : TokenValidationResult
  cache : TokenCache
  outboundCalls : Nat
  deriving Repr, DecidableEq

/-- `SocketAgentAuthMiddleware._validate_token`: consult the cache first;
on a miss issue one outbound call (its outcome given by the oracle
`outcome`), build the verdict — also for exceptions — and cache it. -/
def validateToken (cache : TokenCache) (token : String) (now : Int)
    (outcome : HttpOutcome) : ValidateResult :=
  match cache.get token now with
  | (some cached_result, c1) => ⟨cached_result, c1, 0⟩
  | (none, c1) =>
      let result := outcomeResult outcome
      ⟨result, c1.set token result now, 1⟩

/-- The dict stored in `request.state.auth` by the middleware:
`{"token": ..., "valid": ..., "error": ...}` with `error` present only
for invalid verdicts (`none` models an absent key). -/
structure AuthState where
  token : String
  valid : Bool
  error : Option String := none
  deriving Repr, DecidableEq

/-- The request-scoped state the middleware annotates. -/
structure RequestState where
  auth : Option AuthState
  user : Option User
  deriving Repr, DecidableEq

/-- Python `str.startswith` on character lists (structurally recursive,
so concrete instances evaluate definitionally). -/
def charsStartWith : List Char → List Char → Bool
  | _, [] => true
  | [], _ :: _ => false
  | c :: cs, p :: ps => (c = p) && charsStartWith cs ps

/-- Python `s.startswith(pre)`. -/
def strStartsWith (s pre : String) : Bool := charsStartWith s.data pre.data

/-- Python `s[n:]`. -/
def strDrop (s : String) (n : Nat) : String := String.mk (s.data.drop n)

/-- The token extraction of `_middleware` lines 101-103: a truthy
Authorization header starting with `"Bearer "`, with the prefix removed. -/
def parseBearer (authorization : Option String) : Option String :=
  match authorization with
  | none => none
  | some a =>
      if (a != "") && strStartsWith a "Bearer " then some (strDrop a 7) else none

/-- Result of one `_middleware` run over a downstream continuation
`callNext`: the response, the final request state, the cache state, the
number of outbound validation calls, and the number of `call_next`
invocations. -/
structure MiddlewareResult (ρ : Type) where
  response : ρ
  state : RequestState
  cache : TokenCache
  outboundCalls : Nat
  callNextCalls : Nat
  deriving Repr, DecidableEq

/-- `SocketAgentAuthMiddleware._middleware`: initialise
`request.state.auth` and `request.state.user` to `None`, annotate them
from the validation verdict when a bearer token is present, then invoke
`call_next` once and return its response unchanged. -/
def middleware {ρ : Type} (cache : TokenCache) (authorization : Option String)
    (now : Int) (outcome : HttpOutcome) (callNext : RequestState → ρ) :
    MiddlewareResult ρ :=
  match parseBearer authorization with
  | none =>
      let st : RequestState := ⟨none, none⟩
      ⟨callNext st, st, cache, 0, 1⟩
  | some token =>
      let v := validateToken cache token now outcome
      let st : RequestState :=
        if v.result.valid then ⟨some ⟨token, true, none⟩, v.result.user⟩
        else ⟨some ⟨token, false, v.result.error⟩, none⟩
      ⟨callNext st, st, v.cache, v.outboundCalls, 1⟩

/-- `fastapi.HTTPException`, restricted to the fields used here. -/
structure HTTPException where
  status_code : Nat
  detail : String
  deriving Repr, DecidableEq

/-- `get_current_user`: the dependency that turns the request-scoped
verdict into a `User` or a 401 `HTTPException`. -/
def get_current_user (st : RequestState) : Except HTTPException User :=
  match st.auth with
  | none => .error ⟨401, "Authentication required"⟩
  | some a =>
      if !a.valid then .error ⟨401, a.error.getD "Invalid token"⟩
      else
        match st.user with
        | none => .error ⟨401, "User information not available"⟩
        | some u => .ok u

/-- Modelled from the spec: the host framework runs a declared dependency
before the handler body, so a route that declares authentication as
mandatory via `Depends(get_current_user)` executes its body only when the
dependency returns a user ("A request to a mandatory-auth route with no
Authorization header is rejected before the handler body executes"). -/
def runProtected {ρ : Type} (st : RequestState) (handler : User → ρ) :
    Except HTTPException ρ :=
  match get_current_user st with
  | .error e => .error e
  | .ok u => .ok (handler u)

/-- One externally visible operation on the token cache. -/
inductive CacheOp where
  | get (token : String) (now : Int)
  | set (token : String) (result : TokenValidationResult) (now : Int)
  deriving Repr, DecidableEq

/-- Apply one cache operation to the cache state. -/
def applyOp (c : TokenCache) : CacheOp → TokenCache
  | .get token now => (c.get token now).2
  | .set token result now => c.set token result now

/-- Run a sequence of cache operations. -/
def runOps (c : TokenCache) : List CacheOp → TokenCache
  | [] => c
  | op :: rest => runOps (applyOp c op) rest

/-- The tokens stored by `set` operations in a sequence. -/
def setTokens : List CacheOp → List String
  | [] => []
  | .set t _ _ :: rest => t :: setTokens rest
  | .get _ _ :: rest => setTokens rest

/-! ### JSON values and compact serialization (`json.dumps` with
separators `(",", ":")` and default `ensure_ascii=True`)

`Json` is given as a mutual inductive (instead of nesting `List`) so all
functions over it are structurally recursive and reduce definitionally. -/

mutual
/-- A JSON value. -/
inductive Json where
  | null
  | bool (b : Bool)
  | num (n : Int)
  | str (s : String)
  | arr (xs : JsonArr)
  | obj (fs : JsonObj)
/-- A list of JSON values. -/
inductive JsonArr where
  | nil
  | cons (hd : Json) (tl : JsonArr)
/-- An ordered list of string-keyed JSON fields. -/
inductive JsonObj where
  | nil
  | cons (key : String) (val : Json) (tl : JsonObj)
end

/-- Left brace character. -/
def lbrace : Char := Char.ofNat 123

/-- Right brace character. -/
def rbrace : Char := Char.ofNat 125

/-- Four lowercase hex digits (for `\uXXXX` escapes). -/
def hex4 (n : Nat) : List Char :=
  [hexDigitChar (n / 4096), hexDigitChar (n / 256), hexDigitChar (n / 16),
   hexDigitChar n]

/-- How `json.dumps` (default `ensure_ascii=True`) renders one character
inside a string literal: short escapes for quote, backslash and the named
control characters, `\uXXXX` (with surrogate pairs beyond the BMP) for
other characters outside the printable ASCII range, the character itself
otherwise. -/
def escChar (c : Char) : List Char :=
  let n := c.toNat
  if c = '\"' then ['\\', '\"']
  else if c = '\\' then ['\\', '\\']
  else if n = 10 then ['\\', 'n']
  else if n = 13 then ['\\', 'r']
  else if n = 9 then ['\\', 't']
  else if n = 8 then ['\\', 'b']
  else if n = 12 then ['\\', 'f']
  else if n < 32 || 126 < n then
    if n < 65536 then '\\' :: 'u' :: hex4 n
    else
      let m := n - 65536
      '\\' :: 'u' :: hex4 (55296 + m / 1024) ++ '\\' :: 'u' :: hex4 (56320 + m % 1024)
  else [c]

/-- A JSON string literal: quotes around the escaped characters. -/
def encodeString (s : List Char) : List Char :=
  '\"' :: (s.map escChar).flatten ++ ['\"']

mutual
/-- Compact JSON serialization, as a character list. -/
def dumps : Json → List Char
  | .null => "null".data
  | .bool true => "true".data
  | .bool false => "false".data
  | .num n => (toString n).data
  | .str s => encodeString s.data
  | .arr xs => '[' :: dumpsArr xs ++ [']']
  | .obj fs => lbrace :: dumpsObj fs ++ [rbrace]
/-- Array elements joined by commas. -/
def dumpsArr : JsonArr → List Char
  | .nil => []
  | .cons x tl => dumps x ++ dumpsArrRest tl
/-- Remaining array elements, each preceded by a comma. -/
def dumpsArrRest : JsonArr → List Char
  | .nil => []
  | .cons x tl => ',' :: (dumps x ++ dumpsArrRest tl)
/-- Object fields joined by commas, `key:value` with no spaces. -/
def dumpsObj : JsonObj → List Char
  | .nil => []
  | .cons k v tl => encodeString k.data ++ ':' :: dumps v ++ dumpsObjRest tl
/-- Remaining object fields, each preceded by a comma. -/
def dumpsObjRest : JsonObj → List Char
  | .nil => []
  | .cons k v tl => ',' :: (encodeString k.data ++ ':' :: dumps v ++ dumpsObjRest tl)
end

/-- `len(s.encode("utf-8"))` for a character list. -/
def utf8Count (l : List Char) : Nat := ((l.map utf8CharBytes).flatten).length

/-- Python truthiness of a JSON-shaped value (`if meta.get(...)`). -/
def Json.truthy : Json → Bool
  | .null => false
  | .bool b => b
  | .num n => n != 0
  | .str s => s != ""
  | .arr .nil => false
  | .arr (.cons _ _) => true
  | .obj .nil => false
  | .obj (.cons _ _ _) => true

/-! ### Pydantic models of `schemas.py` and their
`model_dump(exclude_none=True)` serialization (fields in declaration
order, `None`-valued optional fields dropped). -/

/-- `EndpointInfo`: information about a single API endpoint. -/
structure EndpointInfo where
  path : String
  method : String
  summary : String
  auth_required : Bool := false
  scopes : Option (List String) := none
  deriving Repr, DecidableEq

/-- `TokenValidation`: token validation configuration. -/
structure TokenValidation where
  cache_ttl : Int := 300
  validate_endpoint : String := "/v1/me"
  deriving Repr, DecidableEq

/-- `AuthInfo`: authentication configuration. -/
structure AuthInfo where
  type : String := "none"
  description : Option String := none
  identity_service_url : Option String := none
  server_id : Option String := none
  audience : Option String := none
  scopes : Option (List String) := none
  optional : Bool := false
  token_validation : Option TokenValidation := none
  deriving Repr, DecidableEq

/-- `SocketDescriptor`: complete socket-agent API descriptor.  The
`schemas` dict maps a route path to a JSON object with optional
`request` / `response` fragments; `ui` is an opaque optional JSON
object. -/
structure SocketDescriptor where
  name : String
  description : String
  base_url : String
  endpoints : List EndpointInfo
  schemas : List (String × JsonObj) := []
  auth : AuthInfo := {}
  examples : List String := []
  ui : Option JsonObj := none
  specVersion : String := "2025-01-01"

/-- Build a `JsonObj` from a field list. -/
def objOfList : List (String × Json) → JsonObj
  | [] => .nil
  | (k, v) :: rest => .cons k v (objOfList rest)

/-- Build a `JsonArr` from a value list. -/
def arrOfList : List Json → JsonArr
  | [] => .nil
  | x :: rest => .cons x (arrOfList rest)

/-- An optional field: dropped when `None` (`exclude_none=True`). -/
def optField (k : String) : Option Json → List (String × Json)
  | none => []
  | some v => [(k, v)]

/-- `model_dump(exclude_none=True)` of an `EndpointInfo`. -/
def EndpointInfo.dump (e : EndpointInfo) : Json :=
  .obj (objOfList
    ([("path", .str e.path), ("method", .str e.method),
      ("summary", .str e.summary), ("auth_required", .bool e.auth_required)] ++
     optField "scopes"
       (e.scopes.map (fun s => .arr (arrOfList (s.map Json.str))))))

/-- `model_dump(exclude_none=True)` of a `TokenValidation`. -/
def TokenValidation.dump (t : TokenValidation) : Json :=
  .obj (objOfList
    [("cache_ttl", .num t.cache_ttl),
     ("validate_endpoint", .str t.validate_endpoint)])

/-- `model_dump(exclude_none=True)` of an `AuthInfo`. -/
def AuthInfo.dump (a : AuthInfo) : Json :=
  .obj (objOfList
    ([("type", .str a.type)] ++
     optField "description" (a.description.map Json.str) ++
     optField "identity_service_url" (a.identity_service_url.map Json.str) ++
     optField "server_id" (a.server_id.map Json.str) ++
     optField "audience" (a.audience.map Json.str) ++
     optField "scopes"
       (a.scopes.map (fun s => .arr (arrOfList (s.map Json.str)))) ++
     [("optional", .bool a.optional)] ++
     optField "token_validation" (a.token_validation.map TokenValidation.dump)))

/-- `model_dump(exclude_none=True)` of a `SocketDescriptor`. -/
def SocketDescriptor.dump (d : SocketDescriptor) : Json :=
  .obj (objOfList
    ([("name", .str d.name), ("description", .str d.description),
      ("base_url", .str d.base_url),
      ("endpoints", .arr (arrOfList (d.endpoints.map EndpointInfo.dump))),
      ("schemas", .obj (objOfList (d.schemas.map (fun kv => (kv.1, Json.obj kv.2))))),
      ("auth", d.auth.dump),
      ("examples", .arr (arrOfList (d.examples.map Json.str)))] ++
     optField "ui" (d.ui.map Json.obj) ++
     [("specVersion", .str d.specVersion)]))

/-- The serialized size of a descriptor in bytes:
`len(json.dumps(self.model_dump(exclude_none=True), separators) .encode("utf-8"))`. -/
def SocketDescriptor.sizeBytes (d : SocketDescriptor) : Nat :=
  utf8Count (dumps d.dump)

/-- `SocketDescriptor.size_kb`: serialized size divided by 1024.  The
Python float arithmetic is exact here (sizes are far below `2 ^ 52`), so
the value is modelled as a rational. -/
def SocketDescriptor.size_kb (d : SocketDescriptor) : ℚ := (d.sizeBytes : ℚ) / 1024

/-! ### Route model and `spec_builder.build_descriptor` -/

/-- The `_socket_meta` dict a route handler may carry (attached by the
`socket` decorator); every key is read with `dict.get`, so each is
optional here. -/
structure SocketMeta where
  summary : Option String := none
  request_schema : Option Json := none
  response_schema : Option Json := none
  examples : Option (List String) := none

/-- The `_socket_auth` dict attached by the `auth_required` decorator. -/
structure AuthMeta where
  required : Bool := false
  scopes : List String := []
  deriving Repr, DecidableEq

/-- One entry of `app.routes`: whether it is an `APIRoute`, its path and
method set, and the optional metadata dicts on its endpoint function. -/
structure Route where
  isAPIRoute : Bool := true
  path : String
  methods : List String
  socket_meta : Option SocketMeta := none
  socket_auth : Option AuthMeta := none

/-- The `app.state.socket_agent_auth` dict as `fastapi_middleware.py`
populates it (both keys always assigned, `server_id` possibly `None`). -/
structure AuthConfig where
  server_id : Option String := none
  identity_service_url : String := "https://socketagent.io"
  deriving Repr, DecidableEq

/-- The slice of a FastAPI application that `build_descriptor` reads: the
route table and the optional auth-config attribute on `app.state`. -/
structure AppModel where
  routes : List Route
  socket_agent_auth : Option AuthConfig := none

/-- Guard of the route loop: only `APIRoute` instances whose path does
not start with `"/.well-known"` and whose endpoint function carries
`_socket_meta` contribute to the descriptor. -/
def routeIncluded (r : Route) : Bool :=
  r.isAPIRoute && !(strStartsWith r.path "/.well-known") && r.socket_meta.isSome

/-- The `EndpointInfo` entries one route contributes: one per method,
with auth flags from `_socket_auth` and an empty scope list mapped to
`None`. -/
def routeEndpoints (r : Route) : List EndpointInfo :=
  if !r.isAPIRoute then []
  else if strStartsWith r.path "/.well-known" then []
  else
    match r.socket_meta with
    | none => []
    | some sm =>
        let auth_required := (r.socket_auth.map AuthMeta.required).getD false
        let scopes := (r.socket_auth.map AuthMeta.scopes).getD []
        r.methods.map (fun method =>
          { path := r.path, method := method, summary := sm.summary.getD "",
            auth_required := auth_required,
            scopes := if scopes.isEmpty then none else some scopes })

/-- The truthiness test `if meta.get("request_schema")` on an optional
JSON fragment. -/
def fragTruthy : Option Json → Bool
  | none => false
  | some j => j.truthy

/-- One step of the `schemas` accumulation: when either fragment is
truthy, assign `schemas[route.path]` to an object holding the truthy
fragments. -/
def stepSchemas (acc : List (String × JsonObj)) (r : Route) :
    List (String × JsonObj) :=
  if routeIncluded r then
    match r.socket_meta with
    | none => acc
    | some sm =>
        if fragTruthy sm.request_schema || fragTruthy sm.response_schema then
          dictSet acc r.path (objOfList
            ((if fragTruthy sm.request_schema then
                [("request", sm.request_schema.getD .null)] else []) ++
             (if fragTruthy sm.response_schema then
                [("response", sm.response_schema.getD .null)] else [])))
        else acc
  else acc

/-- The example strings one route contributes
(`if meta.get("examples"): all_examples.extend(...)`). -/
def routeExamples (r : Route) : List String :=
  if routeIncluded r then
    match r.socket_meta with
    | none => []
    | some sm =>
        match sm.examples with
        | none => []
        | some l => if l.isEmpty then [] else l
  else []

/-- The descriptor `build_descriptor` assembles (lines 31-113), before
the size check. -/
def mkDescriptor (app : AppModel) (name description base_url : String) :
    SocketDescriptor :=
  let endpoints := (app.routes.map routeEndpoints).flatten
  let schemas := app.routes.foldl stepSchemas []
  let all_examples := (app.routes.map routeExamples).flatten
  let has_auth := endpoints.any (·.auth_required)
  let auth : AuthInfo :=
    if has_auth then
      let cfg := match app.socket_agent_auth with
        | none => AuthConfig.mk none "https://socketagent.io"
        | some cfg => cfg
      { type := "bearer", description := some "JWT tokens from socketagent.id",
        identity_service_url := some cfg.identity_service_url,
        server_id := cfg.server_id, audience := some "api", optional := false }
    else {}
  { name := name, description := description, base_url := base_url,
    endpoints := endpoints, schemas := schemas, auth := auth,
    examples := all_examples }

/-- The error raised by `build_descriptor` (a `ValueError` naming the
offending size). -/
inductive BuildError where
  | sizeExceeded (sizeBytes : Nat)
  deriving Repr, DecidableEq

/-- `build_descriptor`: assemble the descriptor, then raise when its
size exceeds the hard 8KB ceiling and warn (second component `true`)
when it exceeds the soft 3KB ceiling.  The Python comparisons
`size_kb > 8` and `size_kb > 3` on the exact float `bytes / 1024` are
written as the equivalent byte comparisons; the equivalence with
`size_kb` is proved in `size_kb_le8_iff`. -/
def build_descriptor (app : AppModel) (name description base_url : String) :
    Except BuildError (SocketDescriptor × Bool) :=
  let descriptor := mkDescriptor app name description base_url
  let size := descriptor.sizeBytes
  if 8 * 1024 < size then .error (.sizeExceeded size)
  else .ok (descriptor, decide (3 * 1024 < size))

/-! ### `fastapi_middleware.SocketAgentMiddleware` memoization -/

/-- The mutable middleware attributes `_build_descriptor` touches. -/
structure MWState where
  name : String
  description : String
  base_url : Option String
  descriptor : Option SocketDescriptor

/-- The request URL parts used to derive a default base URL. -/
structure RequestURL where
  scheme : String
  netloc : String

/-- The base URL `_build_descriptor` derives: the configured value, or
`scheme://netloc` of the triggering request. -/
def deriveBaseURL (st : MWState) (req : RequestURL) : String :=
  match st.base_url with
  | some b => b
  | none => req.scheme ++ "://" ++ req.netloc

/-- `SocketAgentMiddleware._build_descriptor`: build on first use and
memoize; afterwards return the stored descriptor.  The current
application (whose routes may have changed) is passed explicitly; the
third component records whether a build happened on this call. -/
def mwBuildDescriptor (st : MWState) (req : RequestURL) (app : AppModel) :
    Except BuildError (SocketDescriptor × MWState × Bool) :=
  match st.descriptor with
  | some d => .ok (d, st, false)
  | none =>
      match build_descriptor app st.name st.description (deriveBaseURL st req) with
      | .ok (d, _) => .ok (d, ⟨st.name, st.description, st.base_url, some d⟩, true)
      | .error e => .error e

/-! ### Concrete fixtures used by the witnesses -/

/-- The dump of a descriptor built from an empty route table, minus its
`name` and `description` fields: the closed tail used to compute
serialized sizes of the witness descriptor family. -/
def descRestJson : JsonObj :=
  .cons "base_url" (.str "b")
    (.cons "endpoints" (.arr .nil)
      (.cons "schemas" (.obj .nil)
        (.cons "auth"
          (.obj (.cons "type" (.str "none")
            (.cons "optional" (.bool false) .nil)))
          (.cons "examples" (.arr .nil)
            (.cons "specVersion" (.str "2025-01-01") .nil)))))

/-- A route with declared metadata and mandatory auth, two methods. -/
def todoRoute : Route :=
  ⟨true, "/todos", ["GET", "POST"],
   some ⟨some "List todos", none, none, none⟩, some ⟨true, []⟩⟩

/-- A route lacking declared metadata. -/
def bareRoute : Route := ⟨true, "/bare", ["GET"], none, none⟩

/-- A route under the well-known discovery path, with metadata. -/
def wkRoute : Route :=
  ⟨true, "/.well-known/socket-agent", ["GET"],
   some ⟨some "descriptor", none, none, none⟩, none⟩

/-- A sample application with all three route kinds. -/
def sampleApp : AppModel := ⟨[todoRoute, bareRoute, wkRoute], none⟩

/-! ### Dict lemmas -/

/-- Sanity test vector for the SHA-256 embedding (FIPS 180-2, message
`"abc"`). -/
theorem hashToken_abc :
    hashToken "abc" =
      "ba7816bf8f01cfea414140de5dae2223b00361a396177a9cb410ff61f20015ad" := by
  rfl

theorem dictGet_dictSet_self {α : Type} (l : List (String × α)) (k : String)
    (v : α) : dictGet (dictSet l k v) k = some v := by
  induction l with
  | nil => simp [dictSet, dictGet]
  | cons hd tl ih =>
      obtain ⟨k1, v1⟩ := hd
      by_cases h : k1 = k
      · simp [dictSet, dictGet, h]
      · simp [dictSet, dictGet, h, ih]

theorem dictGet_dictSet_ne {α : Type} (l : List (String × α)) (k k' : String)
    (v : α) (h : k' ≠ k) : dictGet (dictSet l k v) k' = dictGet l k' := by
  have hne : ¬k = k' := fun hk => h hk.symm
  induction l with
  | nil => simp [dictSet, dictGet, hne]
  | cons hd tl ih =>
      obtain ⟨k1, v1⟩ := hd
      by_cases h1 : k1 = k
      · subst h1
        simp [dictSet, dictGet, hne]
      · simp only [dictSet, if_neg h1]
        by_cases h2 : k1 = k'
        · simp [dictGet, h2]
        · simp [dictGet, h2, ih]

theorem dictGet_dictDel_ne {α : Type} (l : List (String × α)) (k k' : String)
    (h : k' ≠ k) : dictGet (dictDel l k) k' = dictGet l k' := by
  have hne : ¬k = k' := fun hk => h hk.symm
  induction l with
  | nil => simp [dictDel]
  | cons hd tl ih =>
      obtain ⟨k1, v1⟩ := hd
      by_cases h1 : k1 = k
      · subst h1
        simp [dictDel, dictGet, hne]
      · simp only [dictDel, if_neg h1]
        by_cases h2 : k1 = k'
        · simp [dictGet, h2]
        · simp [dictGet, h2, ih]

theorem dictGet_dictSet_isSome {α : Type} (l : List (String × α))
    (k k' : String) (v : α)
    (h : (dictGet (dictSet l k v) k').isSome = true) :
    k' = k ∨ (dictGet l k').isSome = true := by
  by_cases hk : k' = k
  · exact Or.inl hk
  · exact Or.inr (by rwa [dictGet_dictSet_ne l k k' v hk] at h)

theorem dictGet_dictDel_isSome {α : Type} (l : List (String × α))
    (k k' : String) (h : (dictGet (dictDel l k) k').isSome = true) :
    (dictGet l k').isSome = true := by
  induction l with
  | nil => simpa [dictDel] using h
  | cons hd tl ih =>
      obtain ⟨k1, v1⟩ := hd
      by_cases h1 : k1 = k
      · simp only [dictDel, if_pos h1] at h
        by_cases h2 : k1 = k'
        · simp [dictGet, h2]
        · simpa [dictGet, h2] using h
      · simp only [dictDel, if_neg h1] at h
        by_cases h2 : k1 = k'
        · simp [dictGet, h2]
        · simp only [dictGet, if_neg h2] at h ⊢
          exact ih h

/-! ### Token cache lemmas -/

theorem TokenCache.get_ttl (c : TokenCache) (token : String) (now : Int) :
    ((c.get token now).2).ttl = c.ttl := by
  rcases hg : dictGet c.cache (hashToken token) with _ | e
  · simp [TokenCache.get, hg]
  · by_cases h : now - e.timestamp < c.ttl <;> simp [TokenCache.get, hg, h]

theorem validateToken_miss (c : TokenCache) (token : String) (now : Int)
    (o : HttpOutcome) (h : (c.get token now).1 = none) :
    validateToken c token now o =
      ⟨outcomeResult o, ((c.get token now).2).set token (outcomeResult o) now, 1⟩ := by
  unfold validateToken
  rcases hg : c.get token now with ⟨res, c1⟩
  rw [hg] at h
  simp only at h
  subst h
  simp

theorem validateToken_hit (c : TokenCache) (token : String) (now : Int)
    (o : HttpOutcome) (r : TokenValidationResult)
    (h : (c.get token now).1 = some r) :
    validateToken c token now o = ⟨r, (c.get token now).2, 0⟩ := by
  unfold validateToken
  rcases hg : c.get token now with ⟨res, c1⟩
  rw [hg] at h
  simp only at h
  subst h
  simp

theorem get_set_fresh (c : TokenCache) (token : String)
    (r : TokenValidationResult) (t0 now : Int) (h : now - t0 < c.ttl) :
    (c.set token r t0).get token now = (some r, c.set token r t0) := by
  simp [TokenCache.get, TokenCache.set, dictGet_dictSet_self, h]

theorem get_set_stale (c : TokenCache) (token : String)
    (r : TokenValidationResult) (t0 now : Int) (h : c.ttl ≤ now - t0) :
    ((c.set token r t0).get token now).1 = none := by
  simp [TokenCache.get, TokenCache.set, dictGet_dictSet_self, not_lt.mpr h]

/-! ### Digest shape lemmas -/

theorem beBytes_length (k n : Nat) : (beBytes k n).length = k := by
  induction k generalizing n with
  | zero => rfl
  | succ k ih => simp [beBytes, ih]

theorem byteHex_flatten_length (l : List Nat) :
    ((l.map byteHex).flatten).length = 2 * l.length := by
  induction l with
  | nil => rfl
  | cons b rest ih =>
      simp only [List.map_cons, List.flatten_cons, List.length_append,
        List.length_cons, ih, byteHex, List.length_nil]
      ring

theorem sha256_length (msg : List Nat) : (sha256 msg).length = 32 := by
  simp [sha256, beBytes_length]

theorem hashToken_length (t : String) : (hashToken t).length = 64 := by
  show (((sha256 (utf8Bytes t)).map byteHex).flatten).length = 64
  rw [byteHex_flatten_length, sha256_length]

/-! ### Claim theorems on the token cache -/

/-- C4: at the moment a cache lookup reads an entry it is strictly
younger than `ttl`; an entry whose age has reached `ttl` is never
returned, and the lookup deletes exactly that key, leaving every other
key unchanged. -/
theorem cache_read_fresh_or_lazy_evict (c : TokenCache) (token : String)
    (now : Int) :
    (∀ r, (c.get token now).1 = some r →
       ∃ e, dictGet c.cache (hashToken token) = some e ∧ r = e.result ∧
         now - e.timestamp < c.ttl) ∧
    (∀ e, dictGet c.cache (hashToken token) = some e →
       c.ttl ≤ now - e.timestamp →
         c.get token now = (none, ⟨c.ttl, dictDel c.cache (hashToken token)⟩) ∧
         ∀ k, k ≠ hashToken token →
           dictGet (dictDel c.cache (hashToken token)) k = dictGet c.cache k) := by
  constructor
  · intro r h
    rcases hg : dictGet c.cache (hashToken token) with _ | e
    · simp [TokenCache.get, hg] at h
    · by_cases hlt : now - e.timestamp < c.ttl
      · refine ⟨e, rfl, ?_, hlt⟩
        simp [TokenCache.get, hg, hlt] at h
        exact h.symm
      · simp [TokenCache.get, hg, hlt] at h
  · intro e hg hge
    refine ⟨by simp [TokenCache.get, hg, not_lt.mpr hge], ?_⟩
    intro k hk
    exact dictGet_dictDel_ne c.cache (hashToken token) k hk

/-- C4 witness: a concrete cache whose single entry (stored at time 0
with `ttl = 300`) is read at time 400: the lookup misses and the entry
is deleted. -/
theorem cache_read_fresh_or_lazy_evict_witness :
    (TokenCache.mk 300
        [(hashToken "abc", ⟨⟨false, none, some "Invalid token"⟩, 0⟩)]).get
      "abc" 400 =
      (none, ⟨300, dictDel
        [(hashToken "abc", ⟨⟨false, none, some "Invalid token"⟩, 0⟩)]
        (hashToken "abc")⟩) :=
  ((cache_read_fresh_or_lazy_evict
      ⟨300, [(hashToken "abc", ⟨⟨false, none, some "Invalid token"⟩, 0⟩)]⟩
      "abc" 400).2 ⟨⟨false, none, some "Invalid token"⟩, 0⟩
      (by rfl) (by decide)).1

/-- C3: after a verdict is fetched with a cache miss at time `t0`
(populating the cache), a second fetch at `t1` with `t1 - t0 < ttl`
returns the identical cached verdict, issues no outbound call and leaves
the cache unchanged; once `ttl ≤ t1 - t0`, the next lookup issues
exactly one fresh outbound call whose verdict comes from the new
outcome. -/
theorem cached_verdict_reused_within_ttl_refreshed_after
    (c : TokenCache) (token : String) (t0 t1 : Int) (o1 o2 : HttpOutcome)
    (hmiss : (c.get token t0).1 = none) :
    (t1 - t0 < c.ttl →
      validateToken (validateToken c token t0 o1).cache token t1 o2 =
        ⟨(validateToken c token t0 o1).result,
         (validateToken c token t0 o1).cache, 0⟩) ∧
    (c.ttl ≤ t1 - t0 →
      (validateToken (validateToken c token t0 o1).cache token t1 o2).outboundCalls
          = 1 ∧
      (validateToken (validateToken c token t0 o1).cache token t1 o2).result =
        outcomeResult o2) := by
  have h1 := validateToken_miss c token t0 o1 hmiss
  have httl := TokenCache.get_ttl c token t0
  rw [h1]
  constructor
  · intro hlt
    have hfresh := get_set_fresh ((c.get token t0).2) token (outcomeResult o1)
      t0 t1 (by rw [httl]; exact hlt)
    have hhit := validateToken_hit
      (((c.get token t0).2).set token (outcomeResult o1) t0) token t1 o2
      (outcomeResult o1) (by rw [hfresh])
    rw [hhit, hfresh]
  · intro hge
    have hstale := get_set_stale ((c.get token t0).2) token (outcomeResult o1)
      t0 t1 (by rw [httl]; exact hge)
    rw [validateToken_miss _ token t1 o2 hstale]
    exact ⟨rfl, rfl⟩

/-- C3 witness: token `"abc"` validated at time 0 against an empty cache
with `ttl = 300`; a refetch at time 1 returns the identical verdict with
no outbound call, and a refetch at time 300 issues exactly one outbound
call. -/
theorem cached_verdict_reused_within_ttl_refreshed_after_witness :
    (validateToken (validateToken ⟨300, []⟩ "abc" 0 .status401).cache "abc" 1
        .status401 =
      ⟨(validateToken ⟨300, []⟩ "abc" 0 .status401).result,
       (validateToken ⟨300, []⟩ "abc" 0 .status401).cache, 0⟩) ∧
    (validateToken (validateToken ⟨300, []⟩ "abc" 0 .status401).cache "abc" 300
        (.ok200 ⟨7, "u", none, "2025-01-01"⟩)).outboundCalls = 1 :=
  ⟨(cached_verdict_reused_within_ttl_refreshed_after ⟨300, []⟩ "abc" 0 1
      .status401 .status401 (by rfl)).1 (by decide),
   ((cached_verdict_reused_within_ttl_refreshed_after ⟨300, []⟩ "abc" 0 300
      .status401 (.ok200 ⟨7, "u", none, "2025-01-01"⟩) (by rfl)).2
      (by decide)).1⟩

/-- C1 counterexample: with an empty cache (`ttl = 300`), a validation
whose outbound call fails with a network error at time 0 yields an
invalid verdict that IS stored in the cache, and the next lookup for the
same token at time 1 issues no fresh outbound call — it returns the
cached error verdict. -/
theorem validation_error_not_cached_cex :
    (validateToken ⟨300, []⟩ "abc" 0 (.failure "timeout")).result.valid = false ∧
    (dictGet (validateToken ⟨300, []⟩ "abc" 0
        (.failure "timeout")).cache.cache (hashToken "abc")).isSome = true ∧
    (validateToken (validateToken ⟨300, []⟩ "abc" 0 (.failure "timeout")).cache
        "abc" 1 (.ok200 ⟨7, "u", none, "2025-01-01"⟩)).outboundCalls = 0 ∧
    (validateToken (validateToken ⟨300, []⟩ "abc" 0 (.failure "timeout")).cache
        "abc" 1 (.ok200 ⟨7, "u", none, "2025-01-01"⟩)).result =
      ⟨false, none, some "Validation error: timeout"⟩ := by
  decide

/-- C1 (amended): when the outbound validation call fails with a
network/protocol error or timeout, the verdict is treated as invalid for
that request and — like any other verdict — IS stored in the token
cache, so a lookup for that token within `ttl` returns the cached error
verdict without a fresh outbound call. -/
theorem validation_error_verdict_cached (c : TokenCache) (token : String)
    (t0 t1 : Int) (msg : String) (o2 : HttpOutcome)
    (hmiss : (c.get token t0).1 = none) (h1 : t1 - t0 < c.ttl) :
    (validateToken c token t0 (.failure msg)).result =
      ⟨false, none, some ("Validation error: " ++ msg)⟩ ∧
    dictGet (validateToken c token t0 (.failure msg)).cache.cache
        (hashToken token) =
      some ⟨⟨false, none, some ("Validation error: " ++ msg)⟩, t0⟩ ∧
    validateToken (validateToken c token t0 (.failure msg)).cache token t1 o2 =
      ⟨⟨false, none, some ("Validation error: " ++ msg)⟩,
       (validateToken c token t0 (.failure msg)).cache, 0⟩ := by
  have hm := validateToken_miss c token t0 (.failure msg) hmiss
  have httl := TokenCache.get_ttl c token t0
  rw [hm]
  refine ⟨rfl, ?_, ?_⟩
  · simp [TokenCache.set, dictGet_dictSet_self, outcomeResult]
  · have hfresh := get_set_fresh ((c.get token t0).2) token
      (outcomeResult (.failure msg)) t0 t1 (by rw [httl]; exact h1)
    have hhit := validateToken_hit
      (((c.get token t0).2).set token (outcomeResult (.failure msg)) t0)
      token t1 o2 (outcomeResult (.failure msg)) (by rw [hfresh])
    rw [hhit, hfresh]
    rfl

/-- C1 witness: concrete run of the amended statement at token `"abc"`,
failure message `"timeout"`, times 0 and 1, `ttl = 300`. -/
theorem validation_error_verdict_cached_witness :
    (validateToken ⟨300, []⟩ "abc" 0 (.failure "timeout")).result =
      ⟨false, none, some "Validation error: timeout"⟩ ∧
    dictGet (validateToken ⟨300, []⟩ "abc" 0
        (.failure "timeout")).cache.cache (hashToken "abc") =
      some ⟨⟨false, none, some "Validation error: timeout"⟩, 0⟩ ∧
    validateToken (validateToken ⟨300, []⟩ "abc" 0 (.failure "timeout")).cache
        "abc" 1 .status401 =
      ⟨⟨false, none, some "Validation error: timeout"⟩,
       (validateToken ⟨300, []⟩ "abc" 0 (.failure "timeout")).cache, 0⟩ :=
  validation_error_verdict_cached ⟨300, []⟩ "abc" 0 1 "timeout" .status401
    (by rfl) (by decide)

/-! ### Claim theorems on reachable cache states -/

theorem runOps_keys (c : TokenCache) (ops : List CacheOp) (k : String)
    (hk : (dictGet (runOps c ops).cache k).isSome = true) :
    (dictGet c.cache k).isSome = true ∨
      ∃ t, t ∈ setTokens ops ∧ k = hashToken t := by
  induction ops generalizing c with
  | nil => exact Or.inl (by simpa [runOps] using hk)
  | cons op rest ih =>
      cases op with
      | get token now =>
          rcases ih (applyOp c (.get token now)) (by simpa [runOps] using hk)
            with h | h
          · left
            rcases hg : dictGet c.cache (hashToken token) with _ | e
            · simpa [applyOp, TokenCache.get, hg] using h
            · by_cases hlt : now - e.timestamp < c.ttl
              · simpa [applyOp, TokenCache.get, hg, hlt] using h
              · have hdel :
                    (dictGet (dictDel c.cache (hashToken token)) k).isSome
                      = true := by
                  simpa [applyOp, TokenCache.get, hg, hlt] using h
                exact dictGet_dictDel_isSome _ _ _ hdel
          · rcases h with ⟨t, ht, hkt⟩
            exact Or.inr ⟨t, by simp [setTokens, ht], hkt⟩
      | set token r now =>
          rcases ih (applyOp c (.set token r now)) (by simpa [runOps] using hk)
            with h | h
          · rcases dictGet_dictSet_isSome c.cache (hashToken token) k ⟨r, now⟩
              (by simpa [applyOp, TokenCache.set] using h) with heq | hsome
            · exact Or.inr ⟨token, by simp [setTokens], heq⟩
            · exact Or.inl hsome
          · rcases h with ⟨t, ht, hkt⟩
            exact Or.inr ⟨t, by simp [setTokens, ht], hkt⟩

/-- C7: in every cache state reachable from empty by `get`/`set`
operations, every key of the cache dict is the SHA-256 hex digest of a
token some `set` stored — 64 lowercase hex characters, never the raw
token of a different length. -/
theorem cache_keys_are_sha256_digests (ttl : Int) (ops : List CacheOp)
    (k : String)
    (hk : (dictGet (runOps ⟨ttl, []⟩ ops).cache k).isSome = true) :
    k ∈ (setTokens ops).map hashToken ∧ k.length = 64 := by
  rcases runOps_keys ⟨ttl, []⟩ ops k hk with h | ⟨t, ht, hkt⟩
  · simp [dictGet] at h
  · subst hkt
    exact ⟨List.mem_map_of_mem hashToken ht, hashToken_length t⟩

/-- C7 witness: storing token `"abc"` puts exactly its 64-character
SHA-256 hex digest in the key set. -/
theorem cache_keys_are_sha256_digests_witness :
    hashToken "abc" ∈
      (setTokens [CacheOp.set "abc" ⟨false, none, some "Invalid token"⟩ 0]).map
        hashToken ∧
    (hashToken "abc").length = 64 :=
  cache_keys_are_sha256_digests 300
    [.set "abc" ⟨false, none, some "Invalid token"⟩ 0] (hashToken "abc")
    (by decide)

/-! ### Claim theorems on the auth middleware and the dependency -/

/-- C10: the auth middleware itself never rejects a request: whatever
the Authorization header, the cache state and the outbound outcome, it
invokes the downstream continuation exactly once, on the annotated
request state, and returns its response unchanged; both request-state
annotations start from `None`, staying `None` without a bearer token and
otherwise reflecting the verdict. -/
theorem auth_middleware_never_rejects {ρ : Type} (cache : TokenCache)
    (authorization : Option String) (now : Int) (outcome : HttpOutcome)
    (callNext : RequestState → ρ) :
    (middleware cache authorization now outcome callNext).response =
      callNext (middleware cache authorization now outcome callNext).state ∧
    (middleware cache authorization now outcome callNext).callNextCalls = 1 ∧
    (parseBearer authorization = none →
      (middleware cache authorization now outcome callNext).state = ⟨none, none⟩ ∧
      (middleware cache authorization now outcome callNext).cache = cache ∧
      (middleware cache authorization now outcome callNext).outboundCalls = 0) ∧
    (∀ token, parseBearer authorization = some token →
      (middleware cache authorization now outcome callNext).state =
        (if (validateToken cache token now outcome).result.valid then
          RequestState.mk (some ⟨token, true, none⟩)
            (validateToken cache token now outcome).result.user
         else
          RequestState.mk
            (some ⟨token, false, (validateToken cache token now outcome).result.error⟩)
            none)) := by
  refine ⟨?_, ?_, ?_, ?_⟩
  · rcases hp : parseBearer authorization with _ | token <;> simp [middleware, hp]
  · rcases hp : parseBearer authorization with _ | token <;> simp [middleware, hp]
  · intro h
    simp [middleware, h]
  · intro token htok
    by_cases hv : (validateToken cache token now outcome).result.valid <;>
      simp [middleware, htok, hv]

/-- C10 witness: a request without an Authorization header leaves both
annotations `None`, touches neither the cache nor the network, and gets
the downstream response; a request with an invalid bearer token gets the
annotated state with `valid = False`. -/
theorem auth_middleware_never_rejects_witness :
    ((middleware (⟨300, []⟩ : TokenCache) none 0 .status401 id).state =
        ⟨none, none⟩ ∧
      (middleware (⟨300, []⟩ : TokenCache) none 0 .status401 id).cache =
        ⟨300, []⟩ ∧
      (middleware (⟨300, []⟩ : TokenCache) none 0 .status401 id).outboundCalls
        = 0) ∧
    (middleware (⟨300, []⟩ : TokenCache) (some "Bearer t") 0 .status401
        id).state =
      (if (validateToken ⟨300, []⟩ "t" 0 .status401).result.valid then
        RequestState.mk (some ⟨"t", true, none⟩)
          (validateToken ⟨300, []⟩ "t" 0 .status401).result.user
       else
        RequestState.mk
          (some ⟨"t", false, (validateToken ⟨300, []⟩ "t" 0 .status401).result.error⟩)
          none) :=
  ⟨(auth_middleware_never_rejects ⟨300, []⟩ none 0 .status401 id).2.2.1 rfl,
   (auth_middleware_never_rejects ⟨300, []⟩ (some "Bearer t") 0 .status401
      id).2.2.2 "t" (by rfl)⟩

/-- C5: a request to a route that declares authentication as mandatory
(via the `get_current_user` dependency) with no bearer token fails with
401 "Authentication required", and one with an invalid token fails with
401 carrying the verdict error string (defaulting to "Invalid token");
in both cases the handler body is never executed — the result is the
error, for every handler. -/
theorem mandatory_auth_rejected_401 {ρ : Type} (cache : TokenCache) (now : Int)
    (outcome : HttpOutcome) (handler : User → ρ) :
    (∀ authorization, parseBearer authorization = none →
      runProtected
          (middleware cache authorization now outcome id).state handler =
        .error ⟨401, "Authentication required"⟩) ∧
    (∀ authorization token, parseBearer authorization = some token →
      (validateToken cache token now outcome).result.valid = false →
      runProtected
          (middleware cache authorization now outcome id).state handler =
        .error ⟨401,
          ((validateToken cache token now outcome).result.error).getD
            "Invalid token"⟩) := by
  constructor
  · intro authorization hp
    simp [middleware, hp, runProtected, get_current_user]
  · intro authorization token hp hv
    simp [middleware, hp, hv, runProtected, get_current_user]

/-- C5 witness: with an empty cache, a request without a header and a
request whose token the identity service rejects (401) are both turned
into 401 errors before any handler runs. -/
theorem mandatory_auth_rejected_401_witness :
    runProtected
        (middleware (⟨300, []⟩ : TokenCache) none 0 .status401 id).state
        (fun u => u) =
      .error ⟨401, "Authentication required"⟩ ∧
    runProtected
        (middleware (⟨300, []⟩ : TokenCache) (some "Bearer t") 0 .status401
          id).state (fun u => u) =
      .error ⟨401,
        ((validateToken ⟨300, []⟩ "t" 0 .status401).result.error).getD
          "Invalid token"⟩ :=
  ⟨(mandatory_auth_rejected_401 ⟨300, []⟩ 0 .status401 (fun u => u)).1
      none rfl,
   (mandatory_auth_rejected_401 ⟨300, []⟩ 0 .status401 (fun u => u)).2
      (some "Bearer t") "t" (by rfl) (by decide)⟩

/-! ### Claim theorems on the descriptor middleware -/

/-- C8: the descriptor is built on the first discovery request and
memoized for the process lifetime: when the first build succeeds, the
stored state holds the descriptor, and every subsequent call — for any
later request and any current route table — returns the same descriptor
without rebuilding. -/
theorem descriptor_memoized_for_process_lifetime
    (st : MWState) (req : RequestURL) (app : AppModel)
    (d : SocketDescriptor) (st' : MWState) (built : Bool)
    (hfirst : st.descriptor = none)
    (hok : mwBuildDescriptor st req app = .ok (d, st', built)) :
    built = true ∧ st'.descriptor = some d ∧
    ∀ req2 app2, mwBuildDescriptor st' req2 app2 = .ok (d, st', false) := by
  simp only [mwBuildDescriptor, hfirst] at hok
  rcases hbd : build_descriptor app st.name st.description (deriveBaseURL st req)
    with e | ⟨d0, w⟩ <;> rw [hbd] at hok
  · simp at hok
  · simp only [Except.ok.injEq, Prod.mk.injEq] at hok
    obtain ⟨hd, hst, hbuilt⟩ := hok
    subst hd
    refine ⟨hbuilt.symm, ?_, ?_⟩
    · rw [← hst]
    · intro req2 app2
      rw [← hst]
      simp [mwBuildDescriptor]

/-- C8 witness: a concrete first build on an empty route table, then a
second call with a different request URL and a grown route table that
returns the memoized descriptor without rebuilding. -/
theorem descriptor_memoized_for_process_lifetime_witness :
    (MWState.mk "n" "d" (some "b")
        (some (mkDescriptor ⟨[], none⟩ "n" "d" "b"))).descriptor =
      some (mkDescriptor ⟨[], none⟩ "n" "d" "b") ∧
    mwBuildDescriptor
        (MWState.mk "n" "d" (some "b")
          (some (mkDescriptor ⟨[], none⟩ "n" "d" "b")))
        ⟨"https", "other"⟩
        ⟨[⟨true, "/new", ["GET"], some ⟨some "s", none, none, none⟩, none⟩],
         none⟩ =
      .ok (mkDescriptor ⟨[], none⟩ "n" "d" "b",
        MWState.mk "n" "d" (some "b")
          (some (mkDescriptor ⟨[], none⟩ "n" "d" "b")), false) :=
  ⟨(descriptor_memoized_for_process_lifetime
      ⟨"n", "d", some "b", none⟩ ⟨"http", "host"⟩ ⟨[], none⟩
      (mkDescriptor ⟨[], none⟩ "n" "d" "b")
      (MWState.mk "n" "d" (some "b")
        (some (mkDescriptor ⟨[], none⟩ "n" "d" "b"))) true rfl
      (by rfl)).2.1,
   (descriptor_memoized_for_process_lifetime
      ⟨"n", "d", some "b", none⟩ ⟨"http", "host"⟩ ⟨[], none⟩
      (mkDescriptor ⟨[], none⟩ "n" "d" "b")
      (MWState.mk "n" "d" (some "b")
        (some (mkDescriptor ⟨[], none⟩ "n" "d" "b"))) true rfl
      (by rfl)).2.2
      ⟨"https", "other"⟩
      ⟨[⟨true, "/new", ["GET"], some ⟨some "s", none, none, none⟩, none⟩],
       none⟩⟩

/-! ### Serialized size lemmas -/

theorem utf8Count_cons (c : Char) (l : List Char) :
    utf8Count (c :: l) = (utf8CharBytes c).length + utf8Count l := by
  simp [utf8Count]

theorem utf8Count_append (l1 l2 : List Char) :
    utf8Count (l1 ++ l2) = utf8Count l1 + utf8Count l2 := by
  simp [utf8Count]

/-- The byte comparisons in `build_descriptor` agree with the Python
float comparisons on `size_kb = bytes / 1024`. -/
theorem size_kb_le8_iff (d : SocketDescriptor) :
    ¬ (8 : ℚ) < d.size_kb ↔ d.sizeBytes ≤ 8 * 1024 := by
  rw [not_lt, SocketDescriptor.size_kb,
    div_le_iff₀ (by norm_num : (0 : ℚ) < 1024)]
  constructor
  · intro h
    exact_mod_cast h
  · intro h
    exact_mod_cast h

/-- A successful build returns exactly the assembled descriptor, within
the hard ceiling. -/
theorem build_ok_eq (app : AppModel) (n ds b : String) (d : SocketDescriptor)
    (w : Bool) (hok : build_descriptor app n ds b = .ok (d, w)) :
    d = mkDescriptor app n ds b ∧
      (mkDescriptor app n ds b).sizeBytes ≤ 8 * 1024 := by
  by_cases h : 8 * 1024 < (mkDescriptor app n ds b).sizeBytes
  · simp [build_descriptor, h] at hok
  · simp only [build_descriptor, h, if_false, Except.ok.injEq,
      Prod.mk.injEq, ite_false] at hok
    exact ⟨hok.1.symm, not_lt.mp h⟩

theorem dumps_obj_cons (key : String) (v : Json) (tl : JsonObj) :
    dumps (.obj (.cons key v tl)) =
      [lbrace] ++ encodeString key.data ++ [':'] ++ dumps v ++
        dumpsObjRest tl ++ [rbrace] := by
  simp [dumps, dumpsObj, List.append_assoc]

theorem dumpsObjRest_cons (key : String) (v : Json) (tl : JsonObj) :
    dumpsObjRest (.cons key v tl) =
      [','] ++ encodeString key.data ++ [':'] ++ dumps v ++
        dumpsObjRest tl := by
  simp [dumpsObjRest, List.append_assoc]

theorem map_escChar_replicate (k : Nat) :
    ((List.replicate k 'a').map escChar).flatten = List.replicate k 'a' := by
  induction k with
  | zero => rfl
  | succ k ih =>
      rw [List.replicate_succ, List.map_cons, List.flatten_cons, ih]
      have ha : escChar 'a' = ['a'] := by decide
      rw [ha]
      rfl

theorem utf8Count_replicate_a (k : Nat) :
    utf8Count (List.replicate k 'a') = k := by
  induction k with
  | zero => rfl
  | succ k ih =>
      rw [List.replicate_succ, utf8Count_cons, ih]
      have : (utf8CharBytes 'a').length = 1 := by decide
      omega

theorem utf8Count_encodeString_replicate (k : Nat) :
    utf8Count (encodeString (List.replicate k 'a')) = k + 2 := by
  show utf8Count ('\"' :: (((List.replicate k 'a').map escChar).flatten ++ ['\"']))
      = k + 2
  rw [utf8Count_cons, utf8Count_append, map_escChar_replicate,
    utf8Count_replicate_a]
  have h1 : (utf8CharBytes '\"').length = 1 := by decide
  have h2 : utf8Count ['\"'] = 1 := by decide
  omega

/-- The serialized size of the witness descriptor family: an empty route
table, name `"n"`, base URL `"b"` and a description of `k` letters. -/
theorem sizeBytes_mk_repl (k : Nat) :
    (mkDescriptor ⟨[], none⟩ "n" (String.mk (List.replicate k 'a'))
      "b").sizeBytes = 153 + k := by
  have h1 : (mkDescriptor ⟨[], none⟩ "n" (String.mk (List.replicate k 'a'))
        "b").dump =
      Json.obj (.cons "name" (.str "n") (.cons "description"
        (.str (String.mk (List.replicate k 'a'))) descRestJson)) := rfl
  show utf8Count (dumps ((mkDescriptor ⟨[], none⟩ "n"
    (String.mk (List.replicate k 'a')) "b").dump)) = 153 + k
  rw [h1, dumps_obj_cons, dumpsObjRest_cons]
  simp only [utf8Count_append]
  have u1 : utf8Count [lbrace] = 1 := by decide
  have u2 : utf8Count (encodeString ['n', 'a', 'm', 'e']) = 6 := by decide
  have u3 : utf8Count [':'] = 1 := by decide
  have u4 : utf8Count (dumps (Json.str "n")) = 3 := by decide
  have u5 : utf8Count [','] = 1 := by decide
  have u6 : utf8Count (encodeString
      ['d', 'e', 's', 'c', 'r', 'i', 'p', 't', 'i', 'o', 'n']) = 13 := by decide
  have u7 : utf8Count (dumpsObjRest descRestJson) = 124 := by decide
  have u8 : utf8Count [rbrace] = 1 := by decide
  have uds : utf8Count (dumps (Json.str (String.mk (List.replicate k 'a'))))
      = k + 2 := utf8Count_encodeString_replicate k
  omega

/-- C2: descriptor construction computes the size from the compact JSON
serialization; a returned descriptor is within the hard 8KB ceiling
(equivalently `size_kb` is at most 8), a size above the hard ceiling is
a construction error naming the size, and a size above the soft 3KB
ceiling but within the hard one returns the descriptor with the warning
flag set. -/
theorem build_descriptor_size_limits (app : AppModel) (n ds b : String) :
    (∀ d w, build_descriptor app n ds b = .ok (d, w) →
       d = mkDescriptor app n ds b ∧ d.sizeBytes ≤ 8 * 1024 ∧
         ¬ (8 : ℚ) < d.size_kb) ∧
    (8 * 1024 < (mkDescriptor app n ds b).sizeBytes →
       build_descriptor app n ds b =
         .error (.sizeExceeded (mkDescriptor app n ds b).sizeBytes)) ∧
    (3 * 1024 < (mkDescriptor app n ds b).sizeBytes →
       (mkDescriptor app n ds b).sizeBytes ≤ 8 * 1024 →
       build_descriptor app n ds b = .ok (mkDescriptor app n ds b, true)) := by
  refine ⟨?_, ?_, ?_⟩
  · intro d w hok
    obtain ⟨hd, hle⟩ := build_ok_eq app n ds b d w hok
    subst hd
    refine ⟨rfl, hle, ?_⟩
    rw [size_kb_le8_iff]
    exact hle
  · intro h
    simp [build_descriptor, h]
  · intro h1 h2
    simp [build_descriptor, not_lt.mpr h2, h1]

/-- C2 witness: an empty route table builds fine; a 9000-letter
description makes the serialized size 9153 bytes and construction
raises; a 3000-letter description makes it 3153 bytes — above the soft
ceiling, below the hard one — and construction returns the descriptor
with the warning flag. -/
theorem build_descriptor_size_limits_witness :
    (mkDescriptor ⟨[], none⟩ "n" "d" "b" = mkDescriptor ⟨[], none⟩ "n" "d" "b" ∧
     (mkDescriptor ⟨[], none⟩ "n" "d" "b").sizeBytes ≤ 8 * 1024 ∧
     ¬ (8 : ℚ) < (mkDescriptor ⟨[], none⟩ "n" "d" "b").size_kb) ∧
    build_descriptor ⟨[], none⟩ "n" (String.mk (List.replicate 9000 'a')) "b" =
      .error (.sizeExceeded (mkDescriptor ⟨[], none⟩ "n"
        (String.mk (List.replicate 9000 'a')) "b").sizeBytes) ∧
    build_descriptor ⟨[], none⟩ "n" (String.mk (List.replicate 3000 'a')) "b" =
      .ok (mkDescriptor ⟨[], none⟩ "n" (String.mk (List.replicate 3000 'a'))
        "b", true) :=
  ⟨(build_descriptor_size_limits ⟨[], none⟩ "n" "d" "b").1
      (mkDescriptor ⟨[], none⟩ "n" "d" "b") false (by rfl),
   (build_descriptor_size_limits ⟨[], none⟩ "n"
      (String.mk (List.replicate 9000 'a')) "b").2.1
      (by rw [sizeBytes_mk_repl]; norm_num),
   (build_descriptor_size_limits ⟨[], none⟩ "n"
      (String.mk (List.replicate 3000 'a')) "b").2.2
      (by rw [sizeBytes_mk_repl]; norm_num)
      (by rw [sizeBytes_mk_repl]; norm_num)⟩

/-! ### Claim theorems on the endpoint list -/

theorem countP_beq_of_nodup (l : List String) (h : l.Nodup) (m : String) :
    l.countP (fun x => x == m) = if m ∈ l then 1 else 0 := by
  induction l with
  | nil => simp
  | cons a tl ih =>
      obtain ⟨ha, htl⟩ := List.nodup_cons.mp h
      by_cases hm : a = m
      · subst hm
        simp [List.countP_cons, ih htl, ha]
      · have hm2 : ¬m = a := fun hx => hm hx.symm
        simp [List.countP_cons, hm, hm2, List.mem_cons, ih htl]

/-- C6: the endpoint list of a built descriptor is the in-order
concatenation of the per-route contributions; a route without
`_socket_meta` contributes nothing, a route under the well-known
discovery prefix contributes nothing, and an included route contributes
exactly one endpoint per method of its (duplicate-free) method set. -/
theorem descriptor_endpoint_membership (app : AppModel) (n ds b : String)
    (d : SocketDescriptor) (w : Bool)
    (hok : build_descriptor app n ds b = .ok (d, w)) :
    d.endpoints = (app.routes.map routeEndpoints).flatten ∧
    ∀ r ∈ app.routes,
      (r.socket_meta = none → routeEndpoints r = []) ∧
      (strStartsWith r.path "/.well-known" = true → routeEndpoints r = []) ∧
      (∀ sm, r.isAPIRoute = true →
        strStartsWith r.path "/.well-known" = false →
        r.socket_meta = some sm → r.methods.Nodup →
        ∀ m, (routeEndpoints r).countP (fun e => e.method == m) =
          if m ∈ r.methods then 1 else 0) := by
  obtain ⟨hd, -⟩ := build_ok_eq app n ds b d w hok
  subst hd
  refine ⟨rfl, ?_⟩
  intro r _
  refine ⟨?_, ?_, ?_⟩
  · intro h
    simp [routeEndpoints, h]
  · intro h
    simp [routeEndpoints, h]
  · intro sm hapi hwk hsm hnodup m
    simp only [routeEndpoints, hapi, hwk, hsm, Bool.not_true,
      Bool.false_eq_true, if_false]
    rw [List.countP_map]
    have hcomp : ((fun e : EndpointInfo => e.method == m) ∘ fun method =>
        ({ path := r.path, method := method,
           summary := sm.summary.getD "",
           auth_required := (r.socket_auth.map AuthMeta.required).getD false,
           scopes := if ((r.socket_auth.map AuthMeta.scopes).getD []).isEmpty
             then none
             else some ((r.socket_auth.map AuthMeta.scopes).getD []) } :
           EndpointInfo)) = fun x => x == m := rfl
    rw [hcomp, countP_beq_of_nodup r.methods hnodup m]

/-- C6 witness: in the sample application, the metadata-less route and
the well-known route contribute nothing, while the todo route
contributes exactly one endpoint for method `"GET"`. -/
theorem descriptor_endpoint_membership_witness :
    (mkDescriptor sampleApp "n" "ds" "b").endpoints =
      (sampleApp.routes.map routeEndpoints).flatten ∧
    routeEndpoints bareRoute = [] ∧
    routeEndpoints wkRoute = [] ∧
    (routeEndpoints todoRoute).countP (fun e => e.method == "GET") =
      if "GET" ∈ todoRoute.methods then 1 else 0 :=
  ⟨(descriptor_endpoint_membership sampleApp "n" "ds" "b"
      (mkDescriptor sampleApp "n" "ds" "b") false (by rfl)).1,
   ((descriptor_endpoint_membership sampleApp "n" "ds" "b"
      (mkDescriptor sampleApp "n" "ds" "b") false (by rfl)).2 bareRoute
      (by simp [sampleApp])).1 rfl,
   ((descriptor_endpoint_membership sampleApp "n" "ds" "b"
      (mkDescriptor sampleApp "n" "ds" "b") false (by rfl)).2 wkRoute
      (by simp [sampleApp])).2.1 (by rfl),
   ((descriptor_endpoint_membership sampleApp "n" "ds" "b"
      (mkDescriptor sampleApp "n" "ds" "b") false (by rfl)).2 todoRoute
      (by simp [sampleApp])).2.2 ⟨some "List todos", none, none, none⟩
      rfl (by rfl) rfl (by decide) "GET"⟩

/-- C9: endpoint ordering follows route registration order: when route
`r1` is registered before route `r2`, the endpoint list is the
contributions of the earlier routes, then those of `r1`, then those of
the routes in between, then those of `r2`, then the rest. -/
theorem endpoints_follow_registration_order (app : AppModel) (n ds b : String)
    (d : SocketDescriptor) (w : Bool)
    (hok : build_descriptor app n ds b = .ok (d, w))
    (l1 l2 l3 : List Route) (r1 r2 : Route)
    (hsplit : app.routes = l1 ++ r1 :: l2 ++ r2 :: l3) :
    d.endpoints =
      (l1.map routeEndpoints).flatten ++ routeEndpoints r1 ++
      (l2.map routeEndpoints).flatten ++ routeEndpoints r2 ++
      (l3.map routeEndpoints).flatten := by
  obtain ⟨hd, -⟩ := build_ok_eq app n ds b d w hok
  subst hd
  show (app.routes.map routeEndpoints).flatten = _
  rw [hsplit]
  simp [List.map_append, List.flatten_append, List.append_assoc]

/-- C9 witness: in the sample application, the todo route is registered
before the bare route, and the endpoint list decomposes accordingly. -/
theorem endpoints_follow_registration_order_witness :
    (mkDescriptor sampleApp "n" "ds" "b").endpoints =
      (([] : List Route).map routeEndpoints).flatten ++
      routeEndpoints todoRoute ++
      (([] : List Route).map routeEndpoints).flatten ++
      routeEndpoints bareRoute ++
      ([wkRoute].map routeEndpoints).flatten :=
  endpoints_follow_registration_order sampleApp "n" "ds" "b"
    (mkDescriptor sampleApp "n" "ds" "b") false (by rfl)
    [] [] [wkRoute] todoRoute bareRoute rfl

end SocketAgent
